import Mathlib

/-!
Shallow embedding of the Arriva Bus Management System backend
(`src/frontend/vite.config.js`, second embedded document: `server.js`).

The backend keeps an in-memory array `buses` of bus records, exposes the
GraphQL mutations `addBus`, `updateBusLocation`, `addReview`, the REST
endpoint `POST /simulate-location`, and fans events out to subscribers
through a `PubSub` instance (library `graphql-subscriptions`, whose code is
not part of this repository; it is modelled from the spec below).

Conventions of the embedding:
* JavaScript numbers used for coordinates are modelled as `Rat` (no claim
  under consideration depends on binary floating-point rounding; the
  coordinates are only stored, compared and shifted by an uninterpreted
  delta).
* The random perturbation `(Math.random() - 0.5) * 0.001` of the
  `/simulate-location` handler is modelled as an arbitrary delta parameter.
* The JavaScript `pubsub.publish(T, { busLocationUpdated: bus })` call
  publishes a *reference* to the live, mutable bus object that sits in the
  `buses` array.  Mutations never remove or replace array elements, they
  only mutate fields of the found element in place, so an array index is a
  faithful model of such a reference: an event payload is the index of the
  bus object, and a subscriber that drains the event observes the fields
  the referenced object has *at drain time* (`observeEvent`).
-/

/-- Coordinates of a bus (`coords: { lat, lng }` in the source). -/
structure Coords where
  lat : Rat
  lng : Rat
deriving Repr, DecidableEq

/-- A bus record, as stored in the in-memory `buses` array. -/
structure Bus where
  id : String
  number : String
  route : String
  capacity : Int
  coords : Coords
deriving Repr, DecidableEq

/-- Modelled from the spec: a subscription handle of the `graphql-subscriptions`
`PubSub` (library code absent from this repository).  Per the spec a
subscription is "a single consumer's handle to a topic — an ordered,
unbounded-enough delivery channel plus cancellation state"; it "belongs to
exactly one topic", and the channel policy of the code is the unbounded one
(policy (a)): the channel is the FIFO list of buffered, not yet drained
events, oldest first. -/
structure Subchannel (ε : Type) where
  sid : Nat
  topic : String
  channel : List ε
deriving Repr, DecidableEq

/-- Modelled from the spec: the registry state of the `PubSub` instance,
"maps topic identifiers to the set of active subscriptions".  `nextSid` is
the source of fresh subscription handles ("identity = an opaque handle
unique for its lifetime"). -/
structure PubSub (ε : Type) where
  subs : List (Subchannel ε)
  nextSid : Nat
deriving Repr, DecidableEq

namespace PubSub

/-- Modelled from the spec: the state of a freshly constructed `new PubSub()`:
no topics, no subscriptions. -/
def empty (ε : Type) : PubSub ε := ⟨[], 0⟩

/-- Modelled from the spec: `subscribe(topic) -> Subscription`: "creates a new
subscription bound to `topic`, registers it under that topic, returns a
handle".  Topics are implicit, so registering is just adding the channel;
the returned handle is the fresh `sid`. -/
def subscribe (ps : PubSub ε) (topic : String) : PubSub ε × Nat :=
  (⟨ps.subs ++ [⟨ps.nextSid, topic, []⟩], ps.nextSid + 1⟩, ps.nextSid)

/-- Modelled from the spec: `publish(topic, event)`: "for every subscription
currently registered under `topic`, delivers `event` to that subscription's
channel", appending it (per-subscriber FIFO, unbounded policy (a), no
drops); subscriptions on other topics are untouched; with no subscriber on
the topic this is a no-op. -/
def publish (ps : PubSub ε) (topic : String) (e : ε) : PubSub ε :=
  ⟨ps.subs.map fun s =>
      if s.topic == topic then { s with channel := s.channel ++ [e] } else s,
    ps.nextSid⟩

/-- Modelled from the spec: `unsubscribe(subscription)`: "removes the
subscription from its topic's set". -/
def unsubscribe (ps : PubSub ε) (sid : Nat) : PubSub ε :=
  ⟨ps.subs.filter (fun s => s.sid != sid), ps.nextSid⟩

/-- Modelled from the spec: the consumer side of the subscription's channel:
the ordered list of events buffered for handle `sid` (what the subscription
session would forward to the client if it drained now).  An absent handle
has nothing to drain. -/
def drain (ps : PubSub ε) (sid : Nat) : List ε :=
  match ps.subs.find? (fun s => s.sid == sid) with
  | some s => s.channel
  | none => []

/-- Modelled from the spec: well-formedness of a registry state: every
registered handle was issued before the next fresh one.  Holds for every
state reachable from `PubSub.empty` through the operations above. -/
def WF (ps : PubSub ε) : Prop :=
  ∀ s ∈ ps.subs, s.sid < ps.nextSid

end PubSub

/-- The topic constant `BUS_LOC_TOPIC = 'BUS_LOCATION'` of the source. -/
def BUS_LOC_TOPIC : String := "BUS_LOCATION"

/-- An event payload is a reference to a live bus object, modelled as the
index of that object in the `buses` array (see the header comment). -/
abbrev EventRef := Nat

/-- The whole mutable server state: the `buses` array and the `pubsub`
instance. -/
structure ServerState where
  buses : List Bus
  pubsub : PubSub EventRef
deriving Repr, DecidableEq

/-- The initial `buses` array of the source:
`[{ id: '1', number: 'MH12AB1234', route: 'A-B', capacity: 40, coords: { lat: 19.07, lng: 72.87 } }]`. -/
def initialBuses : List Bus :=
  [{ id := "1", number := "MH12AB1234", route := "A-B", capacity := 40,
     coords := { lat := 19.07, lng := 72.87 } }]

/-- In-place update of the first bus whose `id` matches, mirroring
`const bus = buses.find(b => b.id === String(id))` followed by field
assignments on the found object: returns the updated array, the updated
bus object (the value now shared by the array slot and the returned
reference) and its index, or `none` when `find` yields `undefined`. -/
def updateFirst (id : String) (f : Bus → Bus) : List Bus → Option (List Bus × Bus × Nat)
  | [] => none
  | b :: rest =>
    if b.id == id then
      some (f b :: rest, f b, 0)
    else
      match updateFirst id f rest with
      | none => none
      | some (rest2, b2, j) => some (b :: rest2, b2, j + 1)

/-- `Mutation.addBus`: pushes a fresh bus with
`id: String(buses.length + 1)` and `coords: { lat: 0, lng: 0 }`, returns
it; nothing is published. -/
def addBus (st : ServerState) (number route : String) (capacity : Int) :
    ServerState × Bus :=
  let bus : Bus :=
    { id := toString (st.buses.length + 1), number := number, route := route,
      capacity := capacity, coords := { lat := 0, lng := 0 } }
  ({ st with buses := st.buses ++ [bus] }, bus)

/-- `Mutation.updateBusLocation`: finds the bus by id (`b.id === String(id)`;
the GraphQL `ID` argument is already a string), returns `null` when absent,
otherwise assigns `bus.coords.lat = lat; bus.coords.lng = lng`, publishes
the bus reference on `BUS_LOC_TOPIC` and returns the bus. -/
def updateBusLocation (st : ServerState) (id : String) (lat lng : Rat) :
    ServerState × Option Bus :=
  match updateFirst id (fun b => { b with coords := { lat := lat, lng := lng } }) st.buses with
  | none => (st, none)
  | some (bs2, b2, i) =>
      ({ buses := bs2, pubsub := st.pubsub.publish BUS_LOC_TOPIC i }, some b2)

/-- The `POST /simulate-location` handler: finds the bus by id, responds 404
when absent, otherwise shifts `coords.lat` and `coords.lng` by the random
deltas (modelled as the parameters `dLat`, `dLng`), publishes the bus
reference on `BUS_LOC_TOPIC` and responds with the bus. -/
def simulateLocation (st : ServerState) (id : String) (dLat dLng : Rat) :
    ServerState × Option Bus :=
  match updateFirst id
      (fun b => { b with coords := { lat := b.coords.lat + dLat, lng := b.coords.lng + dLng } })
      st.buses with
  | none => (st, none)
  | some (bs2, b2, i) =>
      ({ buses := bs2, pubsub := st.pubsub.publish BUS_LOC_TOPIC i }, some b2)

/-- HTTP status of the `/simulate-location` response: `404` on
`bus not found`, `200` (plain `res.json(bus)`) otherwise. -/
def simulateLocationStatus (st : ServerState) (id : String) (dLat dLng : Rat) : Nat :=
  match (simulateLocation st id dLat dLng).2 with
  | none => 404
  | some _ => 200

/-- A review record as posted to the JSON server. -/
structure Review where
  reviewer : String
  message : String
  timestamp : Int
deriving Repr, DecidableEq

/-- The JSON server's response to the POST of a review: a status code and
the stored record it echoes back (`response.json()`). -/
structure StoreResponse where
  status : Nat
  body : Review
deriving Repr, DecidableEq

/-- The error message thrown when the POST fails. -/
def addReviewError (status : Nat) : String :=
  "Backend failed to save data. Status: " ++ toString status

/-- `Mutation.addReview`: builds `{ name, message, timestamp }`, POSTs it to
the record store (modelled by `store`, the store's response as a function of
the posted review), throws unless the status is 200 or 201, else returns
the stored review.  It never touches `buses` or the pubsub instance, so the
server state is returned unchanged. -/
def addReview (st : ServerState) (reviewer message : String) (ts : Int)
    (store : Review → StoreResponse) : ServerState × Except String Review :=
  let newReview : Review := { reviewer := reviewer, message := message, timestamp := ts }
  let response := store newReview
  if response.status ≠ 201 ∧ response.status ≠ 200 then
    (st, .error (addReviewError response.status))
  else
    (st, .ok response.body)

/-- Payload observation: the fields the bus object referenced by event `e`
has in state `st` — what a subscriber sees when it drains `e` while the
server is in state `st`. -/
def observeEvent (st : ServerState) (e : EventRef) : Option Bus :=
  st.buses[e]?

/-- A publish sequence applied to a pubsub state (topic, event pairs in call
order). -/
def publishSeq (ps : PubSub ε) (pubs : List (String × ε)) : PubSub ε :=
  pubs.foldl (fun p te => p.publish te.1 te.2) ps

/-- Publishing a list of events to one fixed topic in order. -/
def publishAll (ps : PubSub ε) (topic : String) (es : List ε) : PubSub ε :=
  es.foldl (fun p e => p.publish topic e) ps

/-- The server state right after startup with one client subscribed to the
bus-location topic: the initial `buses` array and a fresh `PubSub` carrying
the subscription created by `Subscription.busLocationUpdated.subscribe`. -/
def subscribedState : ServerState :=
  { buses := initialBuses,
    pubsub := ((PubSub.empty EventRef).subscribe BUS_LOC_TOPIC).1 }

/-- A small concrete server state (integral coordinates) with one bus and
one subscriber, used to instantiate general theorems on explicit inputs. -/
def sampleState : ServerState :=
  { buses := [⟨"1", "KA01AB0001", "R1", 50, ⟨5, 6⟩⟩],
    pubsub := ⟨[⟨0, BUS_LOC_TOPIC, []⟩], 1⟩ }

/-- One invocation of a state-changing entry point of the server: the
GraphQL mutations `addBus`, `updateBusLocation`, `addReview` and the REST
handler `POST /simulate-location`. -/
inductive ServerOp where
  | add (number route : String) (capacity : Int)
  | update (id : String) (lat lng : Rat)
  | simulate (id : String) (dLat dLng : Rat)
  | review (reviewer message : String) (ts : Int) (store : Review → StoreResponse)

/-- The state transition of one entry-point invocation (the response part is
dropped). -/
def applyOp (st : ServerState) : ServerOp → ServerState
  | .add number route capacity => (addBus st number route capacity).1
  | .update id lat lng => (updateBusLocation st id lat lng).1
  | .simulate id dLat dLng => (simulateLocation st id dLat dLng).1
  | .review reviewer message ts store => (addReview st reviewer message ts store).1

/-- Running a sequence of entry-point invocations. -/
def runOps (st : ServerState) (ops : List ServerOp) : ServerState :=
  ops.foldl applyOp st

/-- The server state at startup: the initial one-bus store and a fresh
`PubSub`. -/
def initialServerState : ServerState :=
  { buses := initialBuses, pubsub := PubSub.empty EventRef }

/-- The id layout `addBus` maintains: the bus at position `i` of the store
has id `String(i + 1)`. -/
def idsPositional (bs : List Bus) : Prop :=
  bs.map Bus.id = (List.range bs.length).map (fun i => toString (i + 1))

namespace PubSub

variable {ε : Type}

theorem find?_publish (ps : PubSub ε) (t : String) (e : ε) (sid : Nat) :
    (ps.publish t e).subs.find? (fun s => s.sid == sid)
      = (ps.subs.find? (fun s => s.sid == sid)).map
          (fun s => if s.topic == t then { s with channel := s.channel ++ [e] } else s) := by
  unfold publish
  rw [List.find?_map]
  have hp : ((fun s : Subchannel ε => s.sid == sid) ∘ fun s =>
        if s.topic == t then { s with channel := s.channel ++ [e] } else s)
      = fun s : Subchannel ε => s.sid == sid := by
    funext s
    by_cases h : s.topic == t
    · rw [Function.comp_apply, if_pos h]
    · rw [Function.comp_apply, if_neg h]
  rw [hp]

theorem find?_publish_of_topic {ps : PubSub ε} {t : String} {e : ε} {sid : Nat}
    {s : Subchannel ε}
    (h : ps.subs.find? (fun x => x.sid == sid) = some s) (ht : s.topic = t) :
    (ps.publish t e).subs.find? (fun x => x.sid == sid)
      = some { s with channel := s.channel ++ [e] } := by
  rw [find?_publish, h]
  simp [ht]

theorem find?_publish_none {ps : PubSub ε} {t : String} {e : ε} {sid : Nat}
    (h : ps.subs.find? (fun x => x.sid == sid) = none) :
    (ps.publish t e).subs.find? (fun x => x.sid == sid) = none := by
  rw [find?_publish, h]
  rfl

theorem drain_eq_of_find? {ps : PubSub ε} {sid : Nat} {s : Subchannel ε}
    (h : ps.subs.find? (fun x => x.sid == sid) = some s) :
    ps.drain sid = s.channel := by
  unfold drain
  rw [h]

theorem drain_eq_nil_of_find?_none {ps : PubSub ε} {sid : Nat}
    (h : ps.subs.find? (fun x => x.sid == sid) = none) :
    ps.drain sid = [] := by
  unfold drain
  rw [h]

theorem find?_publishAll {ps : PubSub ε} {t : String} {sid : Nat} {s : Subchannel ε}
    (es : List ε)
    (h : ps.subs.find? (fun x => x.sid == sid) = some s) (ht : s.topic = t) :
    (publishAll ps t es).subs.find? (fun x => x.sid == sid)
      = some { s with channel := s.channel ++ es } := by
  induction es generalizing ps s with
  | nil =>
      cases s
      simpa [publishAll] using h
  | cons e es ih =>
      have step : (ps.publish t e).subs.find? (fun x => x.sid == sid)
          = some { s with channel := s.channel ++ [e] } := find?_publish_of_topic h ht
      have hall := ih step ht
      simpa [publishAll, List.foldl_cons] using hall

theorem find?_subscribe_self {ps : PubSub ε} {t : String} (hwf : ps.WF) :
    ((ps.subscribe t).1).subs.find? (fun x => x.sid == ps.nextSid)
      = some ⟨ps.nextSid, t, []⟩ := by
  unfold subscribe
  rw [List.find?_append]
  have hnone : ps.subs.find? (fun x => x.sid == ps.nextSid) = none := by
    rw [List.find?_eq_none]
    intro x hx
    have := hwf x hx
    simp only [Bool.not_eq_true, beq_eq_false_iff_ne, ne_eq]
    omega
  rw [hnone]
  simp

theorem find?_unsubscribe_self (ps : PubSub ε) (sid : Nat) :
    (ps.unsubscribe sid).subs.find? (fun x => x.sid == sid) = none := by
  unfold unsubscribe
  rw [List.find?_eq_none]
  intro x hx
  have := List.of_mem_filter hx
  simp only [bne_iff_ne, ne_eq] at this
  simp [this]

theorem find?_publishSeq_none {ps : PubSub ε} {sid : Nat}
    (pubs : List (String × ε))
    (h : ps.subs.find? (fun x => x.sid == sid) = none) :
    (publishSeq ps pubs).subs.find? (fun x => x.sid == sid) = none := by
  induction pubs generalizing ps with
  | nil => simpa [publishSeq] using h
  | cons te pubs ih =>
      have step : (ps.publish te.1 te.2).subs.find? (fun x => x.sid == sid) = none :=
        find?_publish_none h
      simpa [publishSeq, List.foldl_cons] using ih step

end PubSub

/-- C1: for every sequence of publish calls on a topic and every subscription
active on that topic for the whole sequence (here: freshly created by
`subscribe` and never unsubscribed), the subscription's channel, when
drained, yields exactly the published events in publish-call order —
per-subscriber FIFO with no drops under the unbounded channel policy of the
spec-modelled `PubSub`. -/
theorem C1_per_subscriber_fifo {ε : Type} (ps : PubSub ε) (t : String) (es : List ε)
    (hwf : ps.WF) :
    (publishAll ((ps.subscribe t).1) t es).drain (ps.subscribe t).2 = es := by
  have hfind : ((ps.subscribe t).1).subs.find? (fun x => x.sid == ps.nextSid)
      = some ⟨ps.nextSid, t, []⟩ := PubSub.find?_subscribe_self hwf
  have hall := PubSub.find?_publishAll es hfind rfl
  show (publishAll ((ps.subscribe t).1) t es).drain ps.nextSid = es
  have := PubSub.drain_eq_of_find? hall
  simpa using this

/-- Witness for C1: from an empty registry, subscribing to the bus-location
topic and publishing `[1, 2, 3]` drains exactly `[1, 2, 3]`. -/
theorem C1_per_subscriber_fifo_witness :
    (publishAll (((PubSub.empty Nat).subscribe "BUS_LOCATION").1) "BUS_LOCATION" [1, 2, 3]).drain
      ((PubSub.empty Nat).subscribe "BUS_LOCATION").2 = [1, 2, 3] :=
  C1_per_subscriber_fifo (PubSub.empty Nat) "BUS_LOCATION" [1, 2, 3]
    (by intro s hs; simp [PubSub.empty] at hs)

/-- C2: `publish(topic, event)` delivers the event to the channel of every
subscription currently registered under that topic (first conjunct, for an
arbitrary registered subscription), and in the two-subscriber scenario:
after subscribing S1 (handle 0) and S2 (handle 1) and publishing E1 both
hold [E1]; after unsubscribing S1 and publishing E2 the registry holds S2
alone with observed order [E1, E2], so E2 went to S2 only and S1 receives
nothing further. -/
theorem C2_publish_delivers_to_all {ε : Type} (ps : PubSub ε) (t : String) (e E1 E2 : ε)
    (s : Subchannel ε) (hs : s ∈ ps.subs) (hst : s.topic = t) :
    { s with channel := s.channel ++ [e] } ∈ (ps.publish t e).subs
    ∧ ((((PubSub.empty ε).subscribe t).1.subscribe t).1.publish t E1).subs
        = [⟨0, t, [E1]⟩, ⟨1, t, [E1]⟩]
    ∧ ((((((PubSub.empty ε).subscribe t).1.subscribe t).1.publish t E1).unsubscribe
          ((PubSub.empty ε).subscribe t).2).publish t E2).subs = [⟨1, t, [E1, E2]⟩] := by
  refine ⟨?_, ?_, ?_⟩
  · exact List.mem_map.mpr ⟨s, hs, if_pos (beq_iff_eq.mpr hst)⟩
  · simp [PubSub.empty, PubSub.subscribe, PubSub.publish]
  · simp [PubSub.empty, PubSub.subscribe, PubSub.publish, PubSub.unsubscribe]

/-- Witness for C2: a concrete one-subscriber registry on topic "T" with
event 5 delivered, and the concrete two-subscriber scenario with E1 = 1,
E2 = 2. -/
theorem C2_publish_delivers_to_all_witness :
    (⟨0, "T", [5]⟩ : Subchannel Nat) ∈ ((⟨[⟨0, "T", []⟩], 1⟩ : PubSub Nat).publish "T" 5).subs
    ∧ ((((PubSub.empty Nat).subscribe "T").1.subscribe "T").1.publish "T" 1).subs
        = [⟨0, "T", [1]⟩, ⟨1, "T", [1]⟩]
    ∧ ((((((PubSub.empty Nat).subscribe "T").1.subscribe "T").1.publish "T" 1).unsubscribe
          ((PubSub.empty Nat).subscribe "T").2).publish "T" 2).subs = [⟨1, "T", [1, 2]⟩] :=
  C2_publish_delivers_to_all (⟨[⟨0, "T", []⟩], 1⟩ : PubSub Nat) "T" 5 1 2
    ⟨0, "T", []⟩ (by decide) rfl

/-- C3: `unsubscribe` is idempotent, and after it returns no sequence of
subsequent publishes (on any topics, with any events) ever delivers an
event to that subscription: its registry entry is gone and its channel
drains empty. -/
theorem C3_unsubscribe_idempotent_and_final {ε : Type} (ps : PubSub ε) (sid : Nat) :
    (ps.unsubscribe sid).unsubscribe sid = ps.unsubscribe sid
    ∧ ∀ pubs : List (String × ε),
        (publishSeq (ps.unsubscribe sid) pubs).subs.find? (fun s => s.sid == sid) = none
        ∧ (publishSeq (ps.unsubscribe sid) pubs).drain sid = [] := by
  constructor
  · unfold PubSub.unsubscribe
    simp [List.filter_filter]
  · intro pubs
    have h0 := PubSub.find?_unsubscribe_self ps sid
    have h := PubSub.find?_publishSeq_none pubs h0
    exact ⟨h, PubSub.drain_eq_nil_of_find?_none h⟩

/-- C4: publishing to a topic with zero registered subscriptions is a total
no-op on the whole server state: the registry (and trivially the bus
store) is left unchanged, and no error is possible (the operation is a
total function). -/
theorem C4_publish_no_subscribers_noop (st : ServerState) (t : String) (e : EventRef)
    (h : ∀ s ∈ st.pubsub.subs, s.topic ≠ t) :
    { st with pubsub := st.pubsub.publish t e } = st := by
  have hmap : st.pubsub.subs.map
      (fun s => if s.topic == t then { s with channel := s.channel ++ [e] } else s)
      = st.pubsub.subs := by
    have hc : ∀ s ∈ st.pubsub.subs,
        (if s.topic == t then { s with channel := s.channel ++ [e] } else s) = s :=
      fun s hs => if_neg (by simpa using h s hs)
    rw [List.map_congr_left hc]
    simp
  have hps : st.pubsub.publish t e = st.pubsub := by
    unfold PubSub.publish
    rw [hmap]
  rw [hps]

/-- Witness for C4: publishing on a topic nobody subscribed to leaves the
sample server state untouched. -/
theorem C4_publish_no_subscribers_noop_witness :
    { sampleState with pubsub := sampleState.pubsub.publish "NO_SUCH_TOPIC" 0 } = sampleState :=
  C4_publish_no_subscribers_noop sampleState "NO_SUCH_TOPIC" 0 (by decide)


theorem updateFirst_eq_none_iff (id : String) (f : Bus → Bus) (bs : List Bus) :
    updateFirst id f bs = none ↔ ∀ b ∈ bs, ¬(b.id == id) := by
  induction bs with
  | nil => simp [updateFirst]
  | cons b rest ih =>
      unfold updateFirst
      by_cases h : b.id == id
      · rw [if_pos h]
        constructor
        · intro hc
          exact absurd hc (by simp)
        · intro hall
          exact absurd h (hall b (List.mem_cons_self b rest))
      · rw [if_neg h]
        have hmatch : (match updateFirst id f rest with
            | none => none
            | some (rest2, b2, j) => some (b :: rest2, b2, j + 1)) = none
            ↔ updateFirst id f rest = none := by
          cases updateFirst id f rest with
          | none => simp
          | some v =>
              rcases v with ⟨bs2, b2, j⟩
              simp
        rw [hmatch, ih]
        constructor
        · intro hall b' hb'
          rcases List.mem_cons.mp hb' with h1 | h1
          · subst h1; exact h
          · exact hall b' h1
        · intro hall b' hb'
          exact hall b' (List.mem_cons_of_mem _ hb')

theorem updateFirst_eq_none_of_find? {id : String} {f : Bus → Bus} {bs : List Bus}
    (h : bs.find? (fun b => b.id == id) = none) : updateFirst id f bs = none := by
  rw [updateFirst_eq_none_iff]
  exact List.find?_eq_none.mp h

theorem updateFirst_spec (id : String) (f : Bus → Bus) :
    ∀ {bs bs2 : List Bus} {b2 : Bus} {i : Nat}, updateFirst id f bs = some (bs2, b2, i) →
      ∃ b, bs.find? (fun x => x.id == id) = some b ∧ b2 = f b
        ∧ bs[i]? = some b ∧ bs2[i]? = some (f b)
        ∧ bs2.length = bs.length
        ∧ ∀ j, j ≠ i → bs2[j]? = bs[j]? := by
  intro bs
  induction bs with
  | nil => intro bs2 b2 i h; simp [updateFirst] at h
  | cons b rest ih =>
      intro bs2 b2 i h
      unfold updateFirst at h
      by_cases hb : b.id == id
      · rw [if_pos hb] at h
        simp only [Option.some.injEq, Prod.mk.injEq] at h
        obtain ⟨h1, h2, h3⟩ := h
        subst h1; subst h2; subst h3
        refine ⟨b, ?_, rfl, by simp, by simp, by simp, ?_⟩
        · simp [hb]
        · intro j hj
          cases j with
          | zero => exact absurd rfl hj
          | succ k => simp
      · rw [if_neg hb] at h
        cases hr : updateFirst id f rest with
        | none => rw [hr] at h; exact absurd h (by simp)
        | some v =>
            rcases v with ⟨rest2, c, j⟩
            rw [hr] at h
            simp only [Option.some.injEq, Prod.mk.injEq] at h
            obtain ⟨h1, h2, h3⟩ := h
            subst h1; subst h2; subst h3
            obtain ⟨b', hfind, hb2, hsrc, hdst, hlen, hoth⟩ := ih hr
            refine ⟨b', ?_, hb2, by simpa using hsrc, by simpa using hdst, by simp [hlen], ?_⟩
            · simp [hb, hfind]
            · intro k hk
              cases k with
              | zero => simp
              | succ m =>
                  have hm : m ≠ j := fun hm => hk (by simp [hm])
                  simpa using hoth m hm

theorem updateFirst_again (id : String) (f g : Bus → Bus) (hf : ∀ b, (f b).id = b.id) :
    ∀ {bs bs2 : List Bus} {b2 : Bus} {i : Nat}, updateFirst id f bs = some (bs2, b2, i) →
      ∃ bs3, updateFirst id g bs2 = some (bs3, g b2, i) := by
  intro bs
  induction bs with
  | nil => intro bs2 b2 i h; simp [updateFirst] at h
  | cons b rest ih =>
      intro bs2 b2 i h
      unfold updateFirst at h
      by_cases hb : b.id == id
      · rw [if_pos hb] at h
        simp only [Option.some.injEq, Prod.mk.injEq] at h
        obtain ⟨h1, h2, h3⟩ := h
        subst h1; subst h2; subst h3
        refine ⟨g (f b) :: rest, ?_⟩
        unfold updateFirst
        rw [if_pos (by rw [hf b]; exact hb)]
      · rw [if_neg hb] at h
        cases hr : updateFirst id f rest with
        | none => rw [hr] at h; exact absurd h (by simp)
        | some v =>
            rcases v with ⟨rest2, c, j⟩
            rw [hr] at h
            simp only [Option.some.injEq, Prod.mk.injEq] at h
            obtain ⟨h1, h2, h3⟩ := h
            subst h1; subst h2; subst h3
            obtain ⟨bs3, hbs3⟩ := ih hr
            refine ⟨b :: bs3, ?_⟩
            unfold updateFirst
            rw [if_neg hb, hbs3]

theorem updateFirst_map_id (id : String) (f : Bus → Bus) (hf : ∀ b, (f b).id = b.id) :
    ∀ {bs bs2 : List Bus} {b2 : Bus} {i : Nat}, updateFirst id f bs = some (bs2, b2, i) →
      bs2.map Bus.id = bs.map Bus.id := by
  intro bs
  induction bs with
  | nil => intro bs2 b2 i h; simp [updateFirst] at h
  | cons b rest ih =>
      intro bs2 b2 i h
      unfold updateFirst at h
      by_cases hb : b.id == id
      · rw [if_pos hb] at h
        simp only [Option.some.injEq, Prod.mk.injEq] at h
        obtain ⟨h1, h2, h3⟩ := h
        subst h1
        simp [hf b]
      · rw [if_neg hb] at h
        cases hr : updateFirst id f rest with
        | none => rw [hr] at h; exact absurd h (by simp)
        | some v =>
            rcases v with ⟨rest2, c, j⟩
            rw [hr] at h
            simp only [Option.some.injEq, Prod.mk.injEq] at h
            obtain ⟨h1, h2, h3⟩ := h
            subst h1
            simp [ih hr]

theorem updateBusLocation_inv {st : ServerState} {id : String} {lat lng : Rat}
    {st' : ServerState} {b : Bus}
    (h : updateBusLocation st id lat lng = (st', some b)) :
    ∃ bs2 i,
      updateFirst id (fun x => { x with coords := { lat := lat, lng := lng } }) st.buses
        = some (bs2, b, i)
      ∧ st' = { buses := bs2, pubsub := st.pubsub.publish BUS_LOC_TOPIC i } := by
  unfold updateBusLocation at h
  cases hr : updateFirst id (fun x => { x with coords := { lat := lat, lng := lng } }) st.buses with
  | none =>
      rw [hr] at h
      exact absurd h (by simp)
  | some v =>
      rcases v with ⟨bs2, b2, i⟩
      rw [hr] at h
      simp only [Prod.mk.injEq, Option.some.injEq] at h
      obtain ⟨h1, h2⟩ := h
      subst h2
      exact ⟨bs2, i, rfl, h1.symm⟩

theorem simulateLocation_inv {st : ServerState} {id : String} {dLat dLng : Rat}
    {st' : ServerState} {b : Bus}
    (h : simulateLocation st id dLat dLng = (st', some b)) :
    ∃ bs2 i,
      updateFirst id
          (fun x => { x with coords :=
            { lat := x.coords.lat + dLat, lng := x.coords.lng + dLng } }) st.buses
        = some (bs2, b, i)
      ∧ st' = { buses := bs2, pubsub := st.pubsub.publish BUS_LOC_TOPIC i } := by
  unfold simulateLocation at h
  cases hr : updateFirst id
      (fun x => { x with coords :=
        { lat := x.coords.lat + dLat, lng := x.coords.lng + dLng } }) st.buses with
  | none =>
      rw [hr] at h
      exact absurd h (by simp)
  | some v =>
      rcases v with ⟨bs2, b2, i⟩
      rw [hr] at h
      simp only [Prod.mk.injEq, Option.some.injEq] at h
      obtain ⟨h1, h2⟩ := h
      subst h2
      exact ⟨bs2, i, rfl, h1.symm⟩

theorem updateBusLocation_not_found {st : ServerState} {id : String} {lat lng : Rat}
    (h : st.buses.find? (fun b => b.id == id) = none) :
    updateBusLocation st id lat lng = (st, none) := by
  unfold updateBusLocation
  rw [updateFirst_eq_none_of_find? h]

theorem simulateLocation_not_found {st : ServerState} {id : String} {dLat dLng : Rat}
    (h : st.buses.find? (fun b => b.id == id) = none) :
    simulateLocation st id dLat dLng = (st, none) := by
  unfold simulateLocation
  rw [updateFirst_eq_none_of_find? h]

/-- C6: when the id is absent from the bus store, `updateBusLocation`
returns `null` with the whole server state (store and pubsub registry)
unchanged and no publish call made, and `/simulate-location` likewise
leaves the state unchanged, publishes nothing and responds 404. -/
theorem C6_no_publish_on_failed_write (st : ServerState) (id : String)
    (lat lng dLat dLng : Rat)
    (h : st.buses.find? (fun b => b.id == id) = none) :
    updateBusLocation st id lat lng = (st, none)
    ∧ simulateLocation st id dLat dLng = (st, none)
    ∧ simulateLocationStatus st id dLat dLng = 404 := by
  refine ⟨updateBusLocation_not_found h, simulateLocation_not_found h, ?_⟩
  unfold simulateLocationStatus
  rw [simulateLocation_not_found h]

/-- Witness for C6: no bus with id "9" exists in the sample state, so both
entry points fail without touching the state and the REST handler answers
404. -/
theorem C6_no_publish_on_failed_write_witness :
    updateBusLocation sampleState "9" 1 2 = (sampleState, none)
    ∧ simulateLocation sampleState "9" 3 4 = (sampleState, none)
    ∧ simulateLocationStatus sampleState "9" 3 4 = 404 :=
  C6_no_publish_on_failed_write sampleState "9" 1 2 3 4 (by decide)

/-- C8: when a bus with the requested id exists (first match at index `i`),
`updateBusLocation` returns that bus with only its `coords` replaced by the
given latitude and longitude — id, number, route and capacity untouched —
stores exactly that value at index `i`, and leaves every other bus and the
store's length unchanged. -/
theorem C8_updateBusLocation_frame (st : ServerState) (id : String) (lat lng : Rat)
    (b : Bus) (h : st.buses.find? (fun x => x.id == id) = some b) :
    (updateBusLocation st id lat lng).2 = some { b with coords := { lat := lat, lng := lng } }
    ∧ ∃ i : Nat, st.buses[i]? = some b
        ∧ (updateBusLocation st id lat lng).1.buses[i]?
            = some { b with coords := { lat := lat, lng := lng } }
        ∧ (∀ j : Nat, j ≠ i → (updateBusLocation st id lat lng).1.buses[j]? = st.buses[j]?)
        ∧ (updateBusLocation st id lat lng).1.buses.length = st.buses.length := by
  cases hr : updateFirst id (fun x => { x with coords := { lat := lat, lng := lng } }) st.buses with
  | none =>
      exfalso
      have hall := (updateFirst_eq_none_iff id
        (fun x => { x with coords := { lat := lat, lng := lng } }) st.buses).mp hr
      exact absurd (List.find?_some h) (hall b (List.mem_of_find?_eq_some h))
  | some v =>
      rcases v with ⟨bs2, b2, i⟩
      obtain ⟨b', hfind, hb2, hsrc, hdst, hlen, hoth⟩ := updateFirst_spec _ _ hr
      rw [h] at hfind
      injection hfind with hb'
      subst hb'
      have hupd : updateBusLocation st id lat lng
          = ({ buses := bs2, pubsub := st.pubsub.publish BUS_LOC_TOPIC i }, some b2) := by
        unfold updateBusLocation
        rw [hr]
      rw [hupd]
      subst hb2
      exact ⟨rfl, i, hsrc, hdst, hoth, hlen⟩

/-- Witness for C8: updating bus "1" of the sample store to (7, 8) returns
the bus with only its coordinates changed and rewrites only slot 0. -/
theorem C8_updateBusLocation_frame_witness :
    (updateBusLocation sampleState "1" 7 8).2
        = some ⟨"1", "KA01AB0001", "R1", 50, ⟨7, 8⟩⟩
    ∧ ∃ i : Nat, sampleState.buses[i]? = some ⟨"1", "KA01AB0001", "R1", 50, ⟨5, 6⟩⟩
        ∧ (updateBusLocation sampleState "1" 7 8).1.buses[i]?
            = some ⟨"1", "KA01AB0001", "R1", 50, ⟨7, 8⟩⟩
        ∧ (∀ j : Nat, j ≠ i →
            (updateBusLocation sampleState "1" 7 8).1.buses[j]? = sampleState.buses[j]?)
        ∧ (updateBusLocation sampleState "1" 7 8).1.buses.length
            = sampleState.buses.length :=
  C8_updateBusLocation_frame sampleState "1" 7 8 ⟨"1", "KA01AB0001", "R1", 50, ⟨5, 6⟩⟩
    (by decide)

/-- Counterexample to C5: `addBus` commits a state change (the store grows
by one bus) yet makes zero publish calls — the pubsub instance is untouched
and the active subscriber's channel stays empty — so not every mutation
entry point that commits a state change publishes exactly once per logical
change. -/
theorem C5_counterexample_addBus_publishes_nothing :
    ((addBus subscribedState "MH14XY9999" "B-C" 30).1).buses.length
        = subscribedState.buses.length + 1
    ∧ ((addBus subscribedState "MH14XY9999" "B-C" 30).1).pubsub = subscribedState.pubsub
    ∧ ((addBus subscribedState "MH14XY9999" "B-C" 30).1).pubsub.drain 0 = [] := by
  decide

/-- C5 (amended): `updateBusLocation` and `/simulate-location` each publish
exactly one event per successful change, whose payload refers to the
post-change entity (its coordinates are the just-written values, and
observing the event right after the call yields the returned bus); `addBus`
commits its change without publishing anything. -/
theorem C5_amended_broadcast_per_change :
    (∀ (st : ServerState) (id : String) (lat lng : Rat) (st' : ServerState) (b : Bus),
        updateBusLocation st id lat lng = (st', some b) →
          b.coords = { lat := lat, lng := lng }
          ∧ ∃ i, st'.pubsub = st.pubsub.publish BUS_LOC_TOPIC i
              ∧ observeEvent st' i = some b)
    ∧ (∀ (st : ServerState) (id : String) (dLat dLng : Rat) (st' : ServerState) (b : Bus),
        simulateLocation st id dLat dLng = (st', some b) →
          ∃ (i : Nat) (b0 : Bus), st.buses[i]? = some b0
              ∧ b = { b0 with coords :=
                  { lat := b0.coords.lat + dLat, lng := b0.coords.lng + dLng } }
              ∧ st'.pubsub = st.pubsub.publish BUS_LOC_TOPIC i
              ∧ observeEvent st' i = some b)
    ∧ (∀ (st : ServerState) (number route : String) (capacity : Int),
        ((addBus st number route capacity).1).pubsub = st.pubsub) := by
  refine ⟨?_, ?_, fun st n r c => rfl⟩
  · intro st id lat lng st' b h
    obtain ⟨bs2, i, hr, hst'⟩ := updateBusLocation_inv h
    obtain ⟨b0, hfind, hb, hsrc, hdst, hlen, hoth⟩ := updateFirst_spec _ _ hr
    subst hb
    subst hst'
    exact ⟨rfl, i, rfl, hdst⟩
  · intro st id dLat dLng st' b h
    obtain ⟨bs2, i, hr, hst'⟩ := simulateLocation_inv h
    obtain ⟨b0, hfind, hb, hsrc, hdst, hlen, hoth⟩ := updateFirst_spec _ _ hr
    subst hb
    subst hst'
    exact ⟨i, b0, hsrc, rfl, rfl, hdst⟩

/-- Counterexample to C7: the event published by the first
`updateBusLocation` call carries a live reference to the bus object; after
a second `updateBusLocation` on the same bus and before the subscriber
drains, the payload observed for that first event shows the *latest*
coordinates (30, 40), not the coordinates (10, 20) the entity had at the
moment of the publish call — so the published event is not an immutable
snapshot. -/
theorem C7_counterexample_payload_mutated_before_drain :
    (updateBusLocation subscribedState "1" 10 20).2
        = some ⟨"1", "MH12AB1234", "A-B", 40, ⟨10, 20⟩⟩
    ∧ ((updateBusLocation (updateBusLocation subscribedState "1" 10 20).1
          "1" 30 40).1).pubsub.drain 0 = [0, 0]
    ∧ observeEvent
        ((updateBusLocation (updateBusLocation subscribedState "1" 10 20).1 "1" 30 40).1) 0
        = some ⟨"1", "MH12AB1234", "A-B", 40, ⟨30, 40⟩⟩
    ∧ (some (⟨"1", "MH12AB1234", "A-B", 40, ⟨30, 40⟩⟩ : Bus)
        ≠ some (⟨"1", "MH12AB1234", "A-B", 40, ⟨10, 20⟩⟩ : Bus)) := by
  decide

/-- C7 (amended): the payload a subscriber observes when it drains an event
is the referenced entity's state at *drain time*: it equals the state at
the moment of the publish call only while no further mutation has hit that
entity; after a second `updateBusLocation` of the same id, observing the
first event yields the second call's result instead. -/
theorem C7_amended_payload_reflects_drain_time (st : ServerState) (id : String)
    (lat1 lng1 lat2 lng2 : Rat) (st1 st2 : ServerState) (b1 b2 : Bus)
    (h1 : updateBusLocation st id lat1 lng1 = (st1, some b1))
    (h2 : updateBusLocation st1 id lat2 lng2 = (st2, some b2)) :
    ∃ i, st1.pubsub = st.pubsub.publish BUS_LOC_TOPIC i
      ∧ observeEvent st1 i = some b1
      ∧ observeEvent st2 i = some b2
      ∧ b1.coords = { lat := lat1, lng := lng1 }
      ∧ b2.coords = { lat := lat2, lng := lng2 } := by
  obtain ⟨bs2, i, hr1, hst1⟩ := updateBusLocation_inv h1
  obtain ⟨bs2', i', hr2, hst2⟩ := updateBusLocation_inv h2
  obtain ⟨b0, hfind, hb, hsrc, hdst, hlen, hoth⟩ := updateFirst_spec _ _ hr1
  obtain ⟨bs3, hr2'⟩ := updateFirst_again id
    (fun x => { x with coords := { lat := lat1, lng := lng1 } })
    (fun x => { x with coords := { lat := lat2, lng := lng2 } })
    (fun x => rfl) hr1
  have hbuses1 : st1.buses = bs2 := by rw [hst1]
  rw [hbuses1] at hr2
  rw [hr2] at hr2'
  simp only [Option.some.injEq, Prod.mk.injEq] at hr2'
  obtain ⟨h3, h4, h5⟩ := hr2'
  obtain ⟨b0', hfind', hb', hsrc', hdst', hlen', hoth'⟩ := updateFirst_spec _ _ hr2
  refine ⟨i, by rw [hst1], ?_, ?_, by rw [hb], by rw [hb']⟩
  · show st1.buses[i]? = some b1
    rw [hbuses1, hb]
    exact hdst
  · show st2.buses[i]? = some b2
    have : st2.buses = bs2' := by rw [hst2]
    rw [this, ← h5, hb']
    exact hdst'

/-- Witness for the amended C7: two successive updates of bus "1" in the
sample state; draining the first event after the second update shows
coordinates (30, 40). -/
theorem C7_amended_payload_reflects_drain_time_witness :
    ∃ i, (⟨[⟨"1", "KA01AB0001", "R1", 50, ⟨10, 20⟩⟩],
            ⟨[⟨0, BUS_LOC_TOPIC, [0]⟩], 1⟩⟩ : ServerState).pubsub
          = sampleState.pubsub.publish BUS_LOC_TOPIC i
      ∧ observeEvent (⟨[⟨"1", "KA01AB0001", "R1", 50, ⟨10, 20⟩⟩],
            ⟨[⟨0, BUS_LOC_TOPIC, [0]⟩], 1⟩⟩ : ServerState) i
          = some ⟨"1", "KA01AB0001", "R1", 50, ⟨10, 20⟩⟩
      ∧ observeEvent (⟨[⟨"1", "KA01AB0001", "R1", 50, ⟨30, 40⟩⟩],
            ⟨[⟨0, BUS_LOC_TOPIC, [0, 0]⟩], 1⟩⟩ : ServerState) i
          = some ⟨"1", "KA01AB0001", "R1", 50, ⟨30, 40⟩⟩
      ∧ (⟨"1", "KA01AB0001", "R1", 50, ⟨10, 20⟩⟩ : Bus).coords = { lat := 10, lng := 20 }
      ∧ (⟨"1", "KA01AB0001", "R1", 50, ⟨30, 40⟩⟩ : Bus).coords = { lat := 30, lng := 40 } :=
  C7_amended_payload_reflects_drain_time sampleState "1" 10 20 30 40
    ⟨[⟨"1", "KA01AB0001", "R1", 50, ⟨10, 20⟩⟩], ⟨[⟨0, BUS_LOC_TOPIC, [0]⟩], 1⟩⟩
    ⟨[⟨"1", "KA01AB0001", "R1", 50, ⟨30, 40⟩⟩], ⟨[⟨0, BUS_LOC_TOPIC, [0, 0]⟩], 1⟩⟩
    ⟨"1", "KA01AB0001", "R1", 50, ⟨10, 20⟩⟩
    ⟨"1", "KA01AB0001", "R1", 50, ⟨30, 40⟩⟩
    (by decide) (by decide)

theorem digitChar_inj_lt {a b : Nat} (ha : a < 10) (hb : b < 10)
    (h : Nat.digitChar a = Nat.digitChar b) : a = b := by
  have hfin : ∀ x : Fin 10, ∀ y : Fin 10,
      Nat.digitChar x.val = Nat.digitChar y.val → x = y := by decide
  have := hfin ⟨a, ha⟩ ⟨b, hb⟩ h
  exact congrArg Fin.val this

theorem map_digitChar_inj : ∀ (l1 l2 : List Nat), (∀ d ∈ l1, d < 10) → (∀ d ∈ l2, d < 10) →
    l1.map Nat.digitChar = l2.map Nat.digitChar → l1 = l2 := by
  intro l1
  induction l1 with
  | nil =>
      intro l2 _ _ h
      cases l2 with
      | nil => rfl
      | cons b t => simp at h
  | cons a t1 ih =>
      intro l2 h1 h2 h
      cases l2 with
      | nil => simp at h
      | cons b t2 =>
          simp only [List.map_cons, List.cons.injEq] at h
          obtain ⟨hab, ht⟩ := h
          have ha := h1 a (List.mem_cons_self a t1)
          have hb := h2 b (List.mem_cons_self b t2)
          have heq := digitChar_inj_lt ha hb hab
          have ht' := ih t2 (fun d hd => h1 d (List.mem_cons_of_mem _ hd))
            (fun d hd => h2 d (List.mem_cons_of_mem _ hd)) ht
          rw [heq, ht']

theorem toDigitsCore_eq_digits :
    ∀ (fuel n : Nat) (l : List Char), 0 < n → n < fuel →
      Nat.toDigitsCore 10 fuel n l = ((Nat.digits 10 n).map Nat.digitChar).reverse ++ l := by
  intro fuel
  induction fuel with
  | zero => intro n l hn hfuel; omega
  | succ fuel ih =>
      intro n l hn hfuel
      by_cases h10 : n / 10 = 0
      · have hdef : Nat.toDigitsCore 10 (fuel + 1) n l = Nat.digitChar (n % 10) :: l := by
          simp [Nat.toDigitsCore, h10]
        rw [hdef, Nat.digits_def' (by norm_num : (1 : Nat) < 10) hn, h10]
        simp
      · have hdef : Nat.toDigitsCore 10 (fuel + 1) n l
            = Nat.toDigitsCore 10 fuel (n / 10) (Nat.digitChar (n % 10) :: l) := by
          simp [Nat.toDigitsCore, h10]
        have hlt : n / 10 < n := Nat.div_lt_self hn (by norm_num)
        have hfuel' : n / 10 < fuel := by omega
        rw [hdef, ih (n / 10) (Nat.digitChar (n % 10) :: l) (Nat.pos_of_ne_zero h10) hfuel',
          Nat.digits_def' (by norm_num : (1 : Nat) < 10) hn]
        simp

theorem natRepr_eq_digits (n : Nat) (hn : 0 < n) :
    Nat.repr n = (((Nat.digits 10 n).map Nat.digitChar).reverse).asString := by
  unfold Nat.repr Nat.toDigits
  rw [toDigitsCore_eq_digits (n + 1) n [] hn (Nat.lt_succ_self n)]
  simp

theorem asString_inj {l1 l2 : List Char} (h : l1.asString = l2.asString) : l1 = l2 := by
  have := congrArg String.data h
  simpa [List.asString] using this

theorem natRepr_inj : ∀ m n : Nat, Nat.repr m = Nat.repr n → m = n := by
  have key : ∀ m n : Nat, 0 < m → 0 < n → Nat.repr m = Nat.repr n → m = n := by
    intro m n hm hn h
    rw [natRepr_eq_digits m hm, natRepr_eq_digits n hn] at h
    have hrev := asString_inj h
    have hmap := List.reverse_injective hrev
    have hdig := map_digitChar_inj _ _
      (fun d hd => Nat.digits_lt_base (by norm_num) hd)
      (fun d hd => Nat.digits_lt_base (by norm_num) hd) hmap
    have := congrArg (Nat.ofDigits 10) hdig
    rwa [Nat.ofDigits_digits, Nat.ofDigits_digits] at this
  have zeroCase : ∀ n : Nat, 0 < n → Nat.repr 0 ≠ Nat.repr n := by
    intro n hn h
    rw [natRepr_eq_digits n hn] at h
    have h0 : (['0'] : List Char).asString = (((Nat.digits 10 n).map Nat.digitChar).reverse).asString := h
    have hrev := asString_inj h0
    have : ((Nat.digits 10 n).map Nat.digitChar) = ['0'] := by
      have := congrArg List.reverse hrev
      simpa using this.symm
    have hdig : Nat.digits 10 n = [0] := by
      have h00 : (([0] : List Nat).map Nat.digitChar) = ['0'] := by decide
      exact map_digitChar_inj _ _
        (fun d hd => Nat.digits_lt_base (by norm_num) hd)
        (by intro d hd; simp at hd; omega)
        (by rw [this, h00])
    have := congrArg (Nat.ofDigits 10) hdig
    rw [Nat.ofDigits_digits] at this
    simp [Nat.ofDigits] at this
    omega
  intro m n h
  rcases Nat.eq_zero_or_pos m with hm | hm
  · rcases Nat.eq_zero_or_pos n with hn | hn
    · rw [hm, hn]
    · subst hm; exact absurd h (zeroCase n hn)
  · rcases Nat.eq_zero_or_pos n with hn | hn
    · subst hn; exact absurd h.symm (zeroCase m hm)
    · exact key m n hm hn h

theorem natToString_inj : ∀ m n : Nat, toString m = toString n → m = n :=
  natRepr_inj

theorem addReview_def (st : ServerState) (reviewer message : String) (ts : Int)
    (store : Review → StoreResponse) :
    addReview st reviewer message ts store
      = if (store { reviewer := reviewer, message := message, timestamp := ts }).status ≠ 201
            ∧ (store { reviewer := reviewer, message := message, timestamp := ts }).status ≠ 200
        then (st, .error (addReviewError
            (store { reviewer := reviewer, message := message, timestamp := ts }).status))
        else (st, .ok (store { reviewer := reviewer, message := message, timestamp := ts }).body) :=
  rfl

theorem addReview_fst (st : ServerState) (reviewer message : String) (ts : Int)
    (store : Review → StoreResponse) :
    (addReview st reviewer message ts store).1 = st := by
  rw [addReview_def]
  split <;> rfl

theorem idsPositional_initial : idsPositional initialBuses := by
  unfold idsPositional
  decide

theorem idsPositional_addBus (st : ServerState) (number route : String) (capacity : Int)
    (h : idsPositional st.buses) : idsPositional ((addBus st number route capacity).1.buses) := by
  unfold idsPositional at h ⊢
  have hb : (addBus st number route capacity).1.buses
      = st.buses ++ [⟨toString (st.buses.length + 1), number, route, capacity, ⟨0, 0⟩⟩] := rfl
  rw [hb, List.map_append, List.length_append, h]
  simp [List.range_succ]

theorem idsPositional_of_updateFirst {id : String} {f : Bus → Bus}
    (hf : ∀ b, (f b).id = b.id) {bs bs2 : List Bus} {b2 : Bus} {i : Nat}
    (hr : updateFirst id f bs = some (bs2, b2, i))
    (h : idsPositional bs) : idsPositional bs2 := by
  unfold idsPositional at h ⊢
  have hmap := updateFirst_map_id id f hf hr
  have hlen : bs2.length = bs.length := by
    have := congrArg List.length hmap
    simpa using this
  rw [hmap, hlen, h]

theorem idsPositional_applyOp (st : ServerState) (op : ServerOp)
    (h : idsPositional st.buses) : idsPositional (applyOp st op).buses := by
  cases op with
  | add number route capacity => exact idsPositional_addBus st number route capacity h
  | update id lat lng =>
      show idsPositional (updateBusLocation st id lat lng).1.buses
      unfold updateBusLocation
      cases hr : updateFirst id
          (fun b => { b with coords := { lat := lat, lng := lng } }) st.buses with
      | none =>
          show idsPositional st.buses
          exact h
      | some v =>
          rcases v with ⟨bs2, b2, i⟩
          show idsPositional bs2
          refine idsPositional_of_updateFirst ?_ hr h
          intro b
          rfl
  | simulate id dLat dLng =>
      show idsPositional (simulateLocation st id dLat dLng).1.buses
      unfold simulateLocation
      cases hr : updateFirst id
          (fun b => { b with coords :=
            { lat := b.coords.lat + dLat, lng := b.coords.lng + dLng } }) st.buses with
      | none =>
          show idsPositional st.buses
          exact h
      | some v =>
          rcases v with ⟨bs2, b2, i⟩
          show idsPositional bs2
          refine idsPositional_of_updateFirst ?_ hr h
          intro b
          rfl
  | review reviewer message ts store =>
      show idsPositional (addReview st reviewer message ts store).1.buses
      rw [addReview_fst]
      exact h

theorem idsPositional_runOps (ops : List ServerOp) :
    ∀ st : ServerState, idsPositional st.buses → idsPositional (runOps st ops).buses := by
  induction ops with
  | nil => intro st h; exact h
  | cons op ops ih =>
      intro st h
      exact ih (applyOp st op) (idsPositional_applyOp st op h)

theorem idsPositional_nodup {bs : List Bus} (h : idsPositional bs) :
    (bs.map Bus.id).Nodup := by
  rw [h]
  refine List.Nodup.map ?_ (List.nodup_range _)
  intro a b hab
  have := natToString_inj (a + 1) (b + 1) hab
  omega

/-- C9: `addBus` appends exactly one bus whose id is the decimal string of
the new store length, with coordinates (0, 0), returns that bus and leaves
every pre-existing bus unchanged (the old store is a prefix of the new
one); consequently, from the initial one-bus store, any sequence of the
provided entry points leaves all bus ids in the store distinct. -/
theorem C9_addBus_fresh_distinct_ids :
    (∀ (st : ServerState) (number route : String) (capacity : Int),
        (addBus st number route capacity).1.buses
            = st.buses ++ [(addBus st number route capacity).2]
        ∧ (addBus st number route capacity).2
            = { id := toString (st.buses.length + 1), number := number, route := route,
                capacity := capacity, coords := { lat := 0, lng := 0 } }
        ∧ (addBus st number route capacity).1.buses.length = st.buses.length + 1)
    ∧ ∀ ops : List ServerOp, ((runOps initialServerState ops).buses.map Bus.id).Nodup := by
  constructor
  · intro st number route capacity
    exact ⟨rfl, rfl, by simp [addBus]⟩
  · intro ops
    exact idsPositional_nodup
      (idsPositional_runOps ops initialServerState idsPositional_initial)

/-- C10: `addReview` never touches the server state (in particular it
publishes no event to any topic) and throws exactly when the record store's
POST response status is neither 200 nor 201; on success it returns the
stored review echoed by the record store. -/
theorem C10_addReview_error_contract (st : ServerState) (reviewer message : String)
    (ts : Int) (store : Review → StoreResponse) :
    (addReview st reviewer message ts store).1 = st
    ∧ ((∃ r, (addReview st reviewer message ts store).2 = .ok r)
        ↔ ((store { reviewer := reviewer, message := message, timestamp := ts }).status = 200
            ∨ (store { reviewer := reviewer, message := message, timestamp := ts }).status = 201))
    ∧ (((store { reviewer := reviewer, message := message, timestamp := ts }).status = 200
          ∨ (store { reviewer := reviewer, message := message, timestamp := ts }).status = 201) →
        (addReview st reviewer message ts store).2
          = .ok (store { reviewer := reviewer, message := message, timestamp := ts }).body)
    ∧ (¬((store { reviewer := reviewer, message := message, timestamp := ts }).status = 200
          ∨ (store { reviewer := reviewer, message := message, timestamp := ts }).status = 201) →
        (addReview st reviewer message ts store).2
          = .error (addReviewError
              (store { reviewer := reviewer, message := message, timestamp := ts }).status)) := by
  refine ⟨addReview_fst st reviewer message ts store, ?_, ?_, ?_⟩
  · by_cases h : (store { reviewer := reviewer, message := message, timestamp := ts }).status ≠ 201
        ∧ (store { reviewer := reviewer, message := message, timestamp := ts }).status ≠ 200
    · rw [addReview_def, if_pos h]
      obtain ⟨h1, h2⟩ := h
      constructor
      · rintro ⟨r, hr⟩
        exact absurd hr (by simp)
      · intro hc
        omega
    · rw [addReview_def, if_neg h]
      push_neg at h
      constructor
      · intro _
        by_cases h201 : (store ⟨reviewer, message, ts⟩).status = 201
        · exact Or.inr h201
        · exact Or.inl (h h201)
      · intro _
        exact ⟨_, rfl⟩
  · intro hc
    rw [addReview_def, if_neg ?hneg]
    case hneg =>
      rintro ⟨h1, h2⟩
      rcases hc with hc | hc
      · exact h2 hc
      · exact h1 hc
  · intro hc
    push_neg at hc
    obtain ⟨h200, h201⟩ := hc
    rw [addReview_def, if_pos ⟨h201, h200⟩]
